import Mathlib

/-!
# Shallow embedding of `src/LF_UpdateSicCodes_MR.js`

A NetSuite Map/Reduce script that enriches customer records with SIC codes
and a company status fetched from the Companies House API, and conditionally
deactivates customers.  External collaborators (the NetSuite record store,
the HTTPS transport, the saved-search engine) are modelled as explicit
parameters; the script's own logic is translated function by function.
-/

namespace UpdateSic

/-! ## Companies House API responses

The script receives an `https.get` response carrying a numeric status code
(`response.code`) and a raw body string (`response.body`).  Both interpreter
functions begin with `JSON.parse(response.body)` (lines 81 and 108), which
throws on a body that is not valid JSON.  We model a body as either
`malformed` (carrying the raw text, on which `JSON.parse` throws) or a
parsed JSON object with the two optional properties the script reads:
`sic_codes` (array of strings) and `company_status` (string).  An absent
property is `none` (JS `undefined`, falsy); a present empty array is
`some []` (truthy in JS). -/

structure JsonObj where
  sic_codes : Option (List String)
  company_status : Option String
  deriving Repr, DecidableEq

inductive RespBody where
  | malformed (raw : String)
  | obj (o : JsonObj)
  deriving Repr, DecidableEq

structure ApiResponse where
  code : Nat
  body : RespBody
  deriving Repr, DecidableEq

/-- `JSON.parse`: throws (here: `Except.error`) on a malformed body. -/
def jsonParse : RespBody → Except String JsonObj
  | .malformed raw => .error raw
  | .obj o => .ok o

/-- Lines 85–91: `code.slice(0, 1) === '0' ? code.slice(1) : code`.
JS strings are sequences of characters; `slice(0,1)` is the first
character and `slice(1)` the rest, modelled on `String.data`. -/
def trimLeadingZero (code : String) : String :=
  if code.data.take 1 = ['0'] then String.mk (code.data.drop 1) else code

/-- Lines 79–98, `getSicCodesFromCompaniesHouseResponse`:
parse the body (throws on malformed JSON), then, if the status code is 200
and `sic_codes` is present (truthy — an empty array is truthy in JS), push
each code with one leading zero trimmed; otherwise return the initial
empty array. -/
def getSicCodesFromCompaniesHouseResponse (response : ApiResponse) :
    Except String (List String) :=
  (jsonParse response.body).map fun responseBody =>
    if response.code = 200 then
      match responseBody.sic_codes with
      | some codes => codes.map trimLeadingZero
      | none => []
    else []

/-- Lines 107–117, `getCompanyStatusFromCompaniesHouseResponse`:
parse the body (throws on malformed JSON), then, if the status code is 200
and `company_status` is truthy, return it, else the initial `''`.
(A present-but-empty `company_status` is falsy in JS, so `''` results
either way; `some s => s` is extensionally identical.) -/
def getCompanyStatusFromCompaniesHouseResponse (response : ApiResponse) :
    Except String String :=
  (jsonParse response.body).map fun responseBody =>
    if response.code = 200 then
      match responseBody.company_status with
      | some s => s
      | none => ""
    else ""

/-! ## Identifier normalization (inside `getCompaniesHouseApiResponse`)

Lines 48–61.  Two sequential (not chained `else if`) rewrites of
`searchableCompanyId`; their guards — a nonempty all-digit string versus a
nonempty all-whitespace string — are disjoint, so at most one fires. -/

/-- JS regex `\s`: whitespace character class (the common members;
the normalization result only depends on the same predicate being used
in the guard `^\s+$` and in the replacement `\s -> ''`). -/
def isJsWhitespace (c : Char) : Bool :=
  c = ' ' || c = '\t' || c = '\n' || c = '\r' ||
  c = '\x0b' || c = '\x0c' || c = ' '

/-- Lines 48–61: start from `companyId`;
if `companyId.match(/^[0-9]+$/) && companyId.length === 7`, prepend `'0'`;
if `companyId.match(/^\s+$/)`, replace every `\s` with `''` (applied to the
original `companyId`, overwriting the previous assignment). -/
def normalizeCompanyId (companyId : String) : String :=
  let searchableCompanyId :=
    if companyId.data ≠ [] ∧ companyId.data.all Char.isDigit ∧
        companyId.data.length = 7 then
      "0" ++ companyId
    else companyId
  if companyId.data ≠ [] ∧ companyId.data.all isJsWhitespace then
    String.mk (companyId.data.filter fun c => ! isJsWhitespace c)
  else searchableCompanyId

/-! ## The customer record and its mutators

A loaded customer record.  `custentity_sic_codes` is a multiselect field:
`record.setText` is called on it with a single string (per-code attempts,
line 137; clearing with `''`, line 148) and with the whole array (the
commit, line 156).  We record what the last successful `setText` stored.
`custentity_sic_description` is a free-text field; we keep `none` until it
is written so that "never written" is visible in the end state. -/

inductive SicFieldVal where
  | unset
  | single (code : String)
  | multi (codes : List String)
  deriving Repr, DecidableEq

structure ClientRecord where
  id : Nat
  sicCodes : SicFieldVal
  sicDescription : Option String
  companyStatus : String
  balance : Int
  overdueBalance : Int
  unbilledOrders : Int
  isinactive : Bool
  deriving Repr, DecidableEq

/-- Which single-code texts the multiselect store accepts.  `setText` with
a code the store does not recognise throws (the `catch` at line 141);
`setText` with `''` clears the field and succeeds. -/
def setSicText (valid : String → Bool) (record : ClientRecord)
    (text : String) : Option ClientRecord :=
  if text = "" then some { record with sicCodes := .unset }
  else if valid text then some { record with sicCodes := .single text }
  else none

/-- One iteration of the `forEach` at lines 130–153: try
`setText(sicCode)`; on a throw set `errorFound := true` and clear the
field with `setText('')`. -/
def applySicCode (valid : String → Bool) (acc : ClientRecord × Bool)
    (sicCode : String) : ClientRecord × Bool :=
  match setSicText valid acc.1 sicCode with
  | some record => (record, acc.2)
  | none => ({ acc.1 with sicCodes := .unset }, true)

/-- Lines 240–266, `getSicDescriptions`: builds
`data = {recodsCount: 0, records: []}` (typo in the source), runs a
keyword search over the local SIC-code table with the codes joined by
`' OR '`, pushes each description onto `data.records` (and increments the
never-initialised `data.recordsCount`), and returns the `data` OBJECT —
not the records array, although its doc comment says `@returns {array}`. -/
structure SicDescData where
  recodsCount : Nat
  records : List String
  deriving Repr, DecidableEq

/-- JS property access `data.length`: a plain object has no `length`
property, so the access yields `undefined` (here `none`). -/
def SicDescData.lengthProp (_ : SicDescData) : Option Nat := none

/-- JS comparison `x > 0` where `x` may be `undefined`:
`undefined > 0` is `false`. -/
def undefinedGtZero : Option Nat → Bool
  | none => false
  | some n => decide (0 < n)

def getSicDescriptions (descSearch : String → List String)
    (sicCodes : List String) : SicDescData :=
  { recodsCount := 0
    records := descSearch (String.intercalate " OR " sicCodes) }

/-- Result of `updateClientSicCodes`: the mutated record, the `errorFound`
flag, and the argument `getSicDescriptions` was invoked with, if it was
invoked (`none` = not invoked). -/
structure UpdateSicResult where
  record : ClientRecord
  errorFound : Bool
  resolverArg : Option (List String)
  deriving Repr, DecidableEq

/-- Lines 127–174, `updateClientSicCodes`: attempt each code individually
(collecting failures into `errorFound`, clearing the field on each
failure); if no error was found, `setText` the whole array onto the field,
call `getSicDescriptions(sicCodes)`, and — only if
`sicDescriptions.length > 0`, which is `undefined > 0` since the returned
value is an object — write the joined descriptions into
`custentity_sic_description`.  (The `then` branch also calls
`sicDescriptions.join`, which does not exist on the object; it is
unreachable because the guard is always false.) -/
def updateClientSicCodes (valid : String → Bool)
    (descSearch : String → List String) (record : ClientRecord)
    (sicCodes : List String) : UpdateSicResult :=
  let step := sicCodes.foldl (applySicCode valid) (record, false)
  if step.2 then
    { record := step.1, errorFound := true, resolverArg := none }
  else
    let r1 : ClientRecord := { step.1 with sicCodes := .multi sicCodes }
    let sicDescriptions := getSicDescriptions descSearch sicCodes
    let r2 : ClientRecord :=
      if undefinedGtZero sicDescriptions.lengthProp then
        { r1 with
          sicDescription := some (String.intercalate "; " sicDescriptions.records) }
      else r1
    { record := r2, errorFound := false, resolverArg := some sicCodes }

/-- Lines 184–189, `updateClientCompanyStatus`: set the status field
verbatim. -/
def updateClientCompanyStatus (record : ClientRecord)
    (companyStatus : String) : ClientRecord :=
  { record with companyStatus := companyStatus }

/-- Result of `updateClientAccount`: the record, plus whether the
`setValue({fieldId: 'isinactive', value: true})` call was executed. -/
structure AccountResult where
  record : ClientRecord
  didSetInactive : Bool
  deriving Repr, DecidableEq

/-- Lines 203–227, `updateClientAccount`: if the status differs from
`'active'` (strict, case-sensitive `!==`), read the three numeric fields
and, if all are exactly zero, set `isinactive := true`. -/
def updateClientAccount (record : ClientRecord) (companyStatus : String) :
    AccountResult :=
  if companyStatus ≠ "active" then
    if record.balance = 0 ∧ record.overdueBalance = 0 ∧
        record.unbilledOrders = 0 then
      { record := { record with isinactive := true }, didSetInactive := true }
    else { record := record, didSetInactive := false }
  else { record := record, didSetInactive := false }

/-! ## Candidate selection (`getInputData`, lines 278–306)

The saved search is declarative: filters
`custentity_company_no ISNOTEMPTY AND isinactive IS 'F'`, column
`lastmodifieddate` sorted `DESC`, and `getRange({start: 0, end: 600})`.
We model the customer table as a list of rows and execute the search's
meaning: filter, sort by last-modified descending, take rows `[0, 600)`. -/

structure CustomerRow where
  id : Nat
  entityid : String
  companyNo : String
  sicCodes : String
  lastModified : Nat
  isinactive : Bool
  deriving Repr, DecidableEq

def getInputData (db : List CustomerRow) : List CustomerRow :=
  (((db.filter fun r => r.companyNo ≠ "" && r.isinactive = false).mergeSort
      fun a b => b.lastModified ≤ a.lastModified).drop 0).take 600

/-! ## The map stage (lines 316–348)

`map` parses the context value, skips falsy company numbers, performs the
API call (which normalizes the identifier, lines 48–61, before the HTTP
GET), interprets the response, and only when codes or status are present
loads the record, applies the mutators, and saves once.  External
collaborators are an environment: the code-validity predicate of the
multiselect store, the description keyword search, the HTTP transport
(normalized identifier to response), and the record store. -/

structure Env where
  valid : String → Bool
  descSearch : String → List String
  http : String → ApiResponse
  loadRecord : Nat → ClientRecord

/-- Lines 36–70, `getCompaniesHouseApiResponse`: normalize the company id
(lines 48–61) and GET `/company/{searchableCompanyId}`. -/
def getCompaniesHouseApiResponse (env : Env) (companyId : String) :
    ApiResponse :=
  env.http (normalizeCompanyId companyId)

/-- Record-store effects performed by one `map` invocation. -/
inductive Eff where
  | load (id : Nat)
  | save
  deriving Repr, DecidableEq

/-- The observable outcome of one `map` invocation: the record-store
effects in order, the record passed to `save` (if any), and the arguments
the two mutator entry points were invoked with (if invoked). -/
structure MapResult where
  trace : List Eff
  savedRecord : Option ClientRecord
  codesApplied : Option (List String)
  statusApplied : Option String
  deriving Repr, DecidableEq

/-- A parsed `context.value`: the result id and the
`custentity_company_no` column value (`""` models a falsy/missing one). -/
structure MapContextValue where
  id : Nat
  companyNo : String
  deriving Repr, DecidableEq

/-- Lines 316–348, `map`.  An uncaught `JSON.parse` throw propagates out
of `map` (the Map/Reduce framework records it), hence `Except`. -/
def mapStage (env : Env) (context : MapContextValue) :
    Except String MapResult :=
  if context.companyNo = "" then
    .ok { trace := [], savedRecord := none, codesApplied := none,
          statusApplied := none }
  else
    let apiResponse := getCompaniesHouseApiResponse env context.companyNo
    match getSicCodesFromCompaniesHouseResponse apiResponse with
    | .error e => .error e
    | .ok sicCodes =>
      match getCompanyStatusFromCompaniesHouseResponse apiResponse with
      | .error e => .error e
      | .ok companyStatus =>
        if 0 < sicCodes.length ∨ companyStatus ≠ "" then
          let record := env.loadRecord context.id
          let afterCodes :=
            if 0 < sicCodes.length then
              ((updateClientSicCodes env.valid env.descSearch record
                  sicCodes).record, some sicCodes)
            else (record, (none : Option (List String)))
          let afterStatus :=
            if companyStatus ≠ "" then
              ((updateClientAccount
                  (updateClientCompanyStatus afterCodes.1 companyStatus)
                  companyStatus).record, some companyStatus)
            else (afterCodes.1, (none : Option String))
          .ok { trace := [.load context.id, .save],
                savedRecord := some afterStatus.1,
                codesApplied := afterCodes.2,
                statusApplied := afterStatus.2 }
        else
          .ok { trace := [], savedRecord := none, codesApplied := none,
                statusApplied := none }

/-! ## Concrete instances used to evaluate the code on specific inputs -/

/-- A freshly loaded customer record with nothing set. -/
def blankRecord : ClientRecord :=
  { id := 1, sicCodes := .unset, sicDescription := none, companyStatus := "",
    balance := 0, overdueBalance := 0, unbilledOrders := 0, isinactive := false }

/-- Environment whose transport always returns a 404 with a parseable
JSON error body. -/
def env404 : Env :=
  { valid := fun _ => true, descSearch := fun _ => [],
    http := fun _ => { code := 404, body := .obj { sic_codes := none, company_status := none } },
    loadRecord := fun i => { blankRecord with id := i } }

/-- Environment whose transport returns a 200 with one padded SIC code and
a non-active company status. -/
def env200 : Env :=
  { valid := fun _ => true, descSearch := fun _ => [],
    http := fun _ => { code := 200,
                       body := .obj { sic_codes := some ["0620"], company_status := some "dissolved" } },
    loadRecord := fun i => { blankRecord with id := i } }

/-- Environment whose transport returns a 200 whose only SIC code is the
one-character string `"0"`. -/
def envZeroCode : Env :=
  { valid := fun _ => true, descSearch := fun _ => [],
    http := fun _ => { code := 200,
                       body := .obj { sic_codes := some ["0"], company_status := none } },
    loadRecord := fun i => { blankRecord with id := i } }

/-- The outcome of `map` under `env200` for record 1: one load, the code
batch and status applied, one save. -/
def res200 : MapResult :=
  { trace := [.load 1, .save],
    savedRecord := some
      { id := 1, sicCodes := .multi ["620"], sicDescription := none,
        companyStatus := "dissolved", balance := 0, overdueBalance := 0,
        unbilledOrders := 0, isinactive := true },
    codesApplied := some ["620"],
    statusApplied := some "dissolved" }

/-- Environment for the one-way-deactivation run: the loaded record is
already inactive and the registry reports a non-active status. -/
def envInactive : Env :=
  { valid := fun _ => true, descSearch := fun _ => [],
    http := fun _ => { code := 200,
                       body := .obj { sic_codes := none, company_status := some "dissolved" } },
    loadRecord := fun i => { blankRecord with id := i, isinactive := true } }

/-- The record saved by `map` under `envInactive` for record 1. -/
def recInactive : ClientRecord :=
  { id := 1, sicCodes := .unset, sicDescription := none,
    companyStatus := "dissolved", balance := 0, overdueBalance := 0,
    unbilledOrders := 0, isinactive := true }

/-- The outcome of `map` under `envInactive` for record 1. -/
def resInactive : MapResult :=
  { trace := [.load 1, .save], savedRecord := some recInactive,
    codesApplied := none, statusApplied := some "dissolved" }

/-! ## Theorems -/

/-- C1: evaluation of `updateClientSicCodes` at a batch where the store
rejects the first code `"9"` and accepts the second code `"1234"`.  The
claim says that whenever at least one code is rejected the classification
field is left unset regardless of the position of the rejected code; in
fact the per-code `setText` of the later valid code overwrites the clear
performed by the `catch`, so the record ends with `custentity_sic_codes`
holding `"1234"` — not unset — although `errorFound` is true (the
description field is indeed not written). -/
theorem updateClientSicCodes_rejection_not_all_or_nothing :
    (updateClientSicCodes (fun s => s == "1234") (fun _ => []) blankRecord
        ["9", "1234"]).errorFound = true ∧
    (updateClientSicCodes (fun s => s == "1234") (fun _ => []) blankRecord
        ["9", "1234"]).record.sicCodes = .single "1234" ∧
    (updateClientSicCodes (fun s => s == "1234") (fun _ => []) blankRecord
        ["9", "1234"]).record.sicCodes ≠ .unset ∧
    (updateClientSicCodes (fun s => s == "1234") (fun _ => []) blankRecord
        ["9", "1234"]).record.sicDescription = none := by
  refine ⟨rfl, rfl, ?_, rfl⟩
  decide

/-- C4: evaluation of `updateClientSicCodes` on a clean two-code batch
with the description store holding two descriptions.  The claim says the
descriptions are written to `custentity_sic_description` in the multi-code
case and the resolver is used only then; in fact the description field is
never written (`getSicDescriptions` returns its `data` object, whose
`.length` is `undefined`, so the guard `length > 0` is always false), and
the resolver is invoked for every clean batch, including a single-code
one. -/
theorem updateClientSicCodes_description_never_written :
    (updateClientSicCodes (fun _ => true) (fun _ => ["d1", "d2"]) blankRecord
        ["620", "4791"]).errorFound = false ∧
    (updateClientSicCodes (fun _ => true) (fun _ => ["d1", "d2"]) blankRecord
        ["620", "4791"]).record.sicDescription = none ∧
    (updateClientSicCodes (fun _ => true) (fun _ => ["d1", "d2"]) blankRecord
        ["620", "4791"]).resolverArg = some ["620", "4791"] ∧
    (updateClientSicCodes (fun _ => true) (fun _ => ["d1"]) blankRecord
        ["620"]).resolverArg = some ["620"] := by
  exact ⟨rfl, rfl, rfl, rfl⟩

/-- C10: in a 200 response whose raw SIC-code list is `["0"]`, the
interpreter emits the empty string (the one-character code `"0"` has its
leading zero trimmed to `""`), and `map` goes on to pass that empty code
to `updateClientSicCodes`. -/
theorem interpreter_emits_empty_string_code :
    getSicCodesFromCompaniesHouseResponse
        { code := 200, body := .obj { sic_codes := some ["0"], company_status := none } } =
      .ok [""] ∧
    mapStage envZeroCode { id := 7, companyNo := "123" } =
      .ok { trace := [.load 7, .save],
            savedRecord := some { blankRecord with id := 7, sicCodes := .multi [""] },
            codesApplied := some [""],
            statusApplied := none } := by
  exact ⟨rfl, rfl⟩

/-- C3 (counterexample): a 404 response whose body is not valid JSON makes
both interpreters throw (`JSON.parse` runs before the status-code check),
contradicting the claim that every non-200 response, for every body,
yields empty codes and an empty status rather than a hard failure. -/
theorem interpreters_throw_on_non200_malformed_body :
    getSicCodesFromCompaniesHouseResponse { code := 404, body := .malformed "not json" } =
      .error "not json" ∧
    getSicCodesFromCompaniesHouseResponse { code := 404, body := .malformed "not json" } ≠
      .ok [] ∧
    getCompanyStatusFromCompaniesHouseResponse { code := 404, body := .malformed "not json" } =
      .error "not json" ∧
    getCompanyStatusFromCompaniesHouseResponse { code := 404, body := .malformed "not json" } ≠
      .ok "" := by
  refine ⟨rfl, ?_, rfl, ?_⟩ <;> intro h <;> exact Except.noConfusion h

/-- C3 (amended): for every lookup response whose body parses as JSON and
whose HTTP status code is not 200, interpretation yields empty codes and
an empty company status rather than a hard failure. -/
theorem non200_parseable_yields_empty (resp : ApiResponse) (o : JsonObj)
    (hb : resp.body = .obj o) (hc : resp.code ≠ 200) :
    getSicCodesFromCompaniesHouseResponse resp = .ok [] ∧
    getCompanyStatusFromCompaniesHouseResponse resp = .ok "" := by
  unfold getSicCodesFromCompaniesHouseResponse
    getCompanyStatusFromCompaniesHouseResponse
  rw [hb]
  simp [jsonParse, Except.map, hc]

/-- Witness for the amended C3 at a concrete 404 response with a
parseable body. -/
theorem non200_parseable_yields_empty_witness :
    getSicCodesFromCompaniesHouseResponse
        { code := 404, body := .obj { sic_codes := none, company_status := none } } = .ok [] ∧
    getCompanyStatusFromCompaniesHouseResponse
        { code := 404, body := .obj { sic_codes := none, company_status := none } } = .ok "" :=
  non200_parseable_yields_empty
    { code := 404, body := .obj { sic_codes := none, company_status := none } }
    { sic_codes := none, company_status := none } rfl (by decide)

/-- C2: `updateClientAccount` executes the `isinactive := true` write if
and only if the company status differs from `"active"` (case-sensitive)
and balance, overdue balance and unbilled orders are all exactly zero;
when it does not execute the write, the record is returned unchanged. -/
theorem updateClientAccount_deactivation_guard (record : ClientRecord)
    (companyStatus : String) :
    ((updateClientAccount record companyStatus).didSetInactive = true ↔
      (companyStatus ≠ "active" ∧ record.balance = 0 ∧
        record.overdueBalance = 0 ∧ record.unbilledOrders = 0)) ∧
    (updateClientAccount record companyStatus).record =
      (if companyStatus ≠ "active" ∧ record.balance = 0 ∧
          record.overdueBalance = 0 ∧ record.unbilledOrders = 0 then
        { record with isinactive := true }
      else record) := by
  unfold updateClientAccount
  by_cases h1 : companyStatus = "active"
  · simp [h1]
  · by_cases h2 : record.balance = 0 ∧ record.overdueBalance = 0 ∧
        record.unbilledOrders = 0
    · simp [h1, h2]
    · simp [h1, h2]

/-- A digit character is not a JS whitespace character. -/
theorem isJsWhitespace_eq_false_of_isDigit {c : Char}
    (h : c.isDigit = true) : isJsWhitespace c = false := by
  unfold isJsWhitespace
  simp only [Bool.or_eq_false_iff, decide_eq_false_iff_not]
  refine ⟨⟨⟨⟨⟨⟨?_, ?_⟩, ?_⟩, ?_⟩, ?_⟩, ?_⟩, ?_⟩ <;>
    rintro rfl <;> simp [Char.isDigit] at h

/-- C7: the identifier-normalization rules.  A raw identifier of exactly
seven digits gets one `"0"` prepended (producing an 8-character string); a
nonempty all-whitespace raw normalizes to the empty string; any raw
matching neither pattern is returned unchanged.  The two guards are
disjoint, so the sequential rewrites of the source agree with
first-match-wins rule ordering, and the function is total. -/
theorem normalizeCompanyId_rules (raw : String) :
    (raw.data.all Char.isDigit = true → raw.data.length = 7 →
      normalizeCompanyId raw = "0" ++ raw ∧
      (normalizeCompanyId raw).data.length = 8) ∧
    (raw.data ≠ [] → raw.data.all isJsWhitespace = true →
      normalizeCompanyId raw = "") ∧
    (¬ (raw.data.all Char.isDigit = true ∧ raw.data.length = 7) →
      ¬ (raw.data ≠ [] ∧ raw.data.all isJsWhitespace = true) →
      normalizeCompanyId raw = raw) := by
  refine ⟨?_, ?_, ?_⟩
  · intro hdig hlen
    have hne : raw.data ≠ [] := by
      intro h
      rw [h] at hlen
      exact absurd hlen (by decide)
    have hnotws : ¬ (raw.data ≠ [] ∧ raw.data.all isJsWhitespace = true) := by
      rintro ⟨-, hws⟩
      obtain ⟨c, hc⟩ := List.exists_mem_of_ne_nil raw.data hne
      have h1 := List.all_eq_true.mp hdig c hc
      have h2 := List.all_eq_true.mp hws c hc
      rw [isJsWhitespace_eq_false_of_isDigit h1] at h2
      exact Bool.false_ne_true h2
    have hres : normalizeCompanyId raw = "0" ++ raw := by
      unfold normalizeCompanyId
      rw [if_neg hnotws, if_pos ⟨hne, hdig, hlen⟩]
    refine ⟨hres, ?_⟩
    rw [hres, String.data_append]
    simp [hlen]
  · intro hne hws
    unfold normalizeCompanyId
    rw [if_pos ⟨hne, hws⟩]
    have : raw.data.filter (fun c => ! isJsWhitespace c) = [] := by
      rw [List.filter_eq_nil_iff]
      intro c hc
      rw [List.all_eq_true.mp hws c hc]
      decide
    rw [this]
  · intro hnotdig hnotws
    have : ¬ (raw.data ≠ [] ∧ raw.data.all Char.isDigit = true ∧
        raw.data.length = 7) := by
      rintro ⟨-, hd, hl⟩
      exact hnotdig ⟨hd, hl⟩
    unfold normalizeCompanyId
    rw [if_neg hnotws, if_neg this]

/-- Witness for C7 at the three concrete inputs `"1234567"` (seven
digits), `"   "` (all whitespace) and `"SC12345"` (neither pattern). -/
theorem normalizeCompanyId_rules_witness :
    normalizeCompanyId "1234567" = "0" ++ "1234567" ∧
    normalizeCompanyId "   " = "" ∧
    normalizeCompanyId "SC12345" = "SC12345" :=
  ⟨((normalizeCompanyId_rules "1234567").1 (by decide) (by decide)).1,
   (normalizeCompanyId_rules "   ").2.1 (by decide) (by decide),
   (normalizeCompanyId_rules "SC12345").2.2 (by decide) (by decide)⟩

/-- Trimming a code whose first character is `'0'` removes exactly that
one character: prepending `"0"` recovers the original code, and the
length drops by one. -/
theorem trimLeadingZero_head_zero {c : String}
    (h : c.data.take 1 = ['0']) :
    "0" ++ trimLeadingZero c = c ∧
    (trimLeadingZero c).length + 1 = c.length := by
  have ht : trimLeadingZero c = String.mk (c.data.drop 1) := by
    unfold trimLeadingZero
    rw [if_pos h]
  constructor
  · apply String.ext
    rw [ht, String.data_append]
    show ['0'] ++ c.data.drop 1 = c.data
    rw [← h, List.take_append_drop]
  · rw [ht]
    show (c.data.drop 1).length + 1 = c.data.length
    rw [List.length_drop]
    have hne : c.data ≠ [] := by
      intro hb
      rw [hb] at h
      simp at h
    have hpos : 0 < c.data.length := List.length_pos.mpr hne
    omega

/-- Trimming leaves a code whose first character is not `'0'` unchanged. -/
theorem trimLeadingZero_head_ne {c : String}
    (h : c.data.take 1 ≠ ['0']) : trimLeadingZero c = c := by
  unfold trimLeadingZero
  rw [if_neg h]

/-- Indexing a mapped list inside its bounds. -/
theorem getD_map_of_lt {α β : Type} (f : α → β) (da : α) (db : β) :
    ∀ (l : List α) (i : Nat), i < l.length →
      (l.map f).getD i db = f (l.getD i da)
  | [], i, h => absurd h (by simp)
  | a :: t, 0, _ => rfl
  | a :: t, i + 1, h =>
    getD_map_of_lt f da db t i (Nat.lt_of_succ_lt_succ h)

/-- C6: for a 200 response with a raw SIC-code list, the interpreter
output has the same length as the input (no code dropped, duplicates kept)
and, position by position (order preserved), a code whose first character
is `"0"` loses exactly that one leading zero while any other code passes
through unchanged. -/
theorem getSicCodes_strips_one_leading_zero (resp : ApiResponse)
    (o : JsonObj) (cs : List String) (hb : resp.body = .obj o)
    (hcs : o.sic_codes = some cs) (hcode : resp.code = 200) :
    ∃ out, getSicCodesFromCompaniesHouseResponse resp = .ok out ∧
      out.length = cs.length ∧
      ∀ i, i < cs.length →
        ((cs.getD i "").data.take 1 = ['0'] →
          "0" ++ out.getD i "" = cs.getD i "" ∧
          (out.getD i "").length + 1 = (cs.getD i "").length) ∧
        ((cs.getD i "").data.take 1 ≠ ['0'] →
          out.getD i "" = cs.getD i "") := by
  refine ⟨cs.map trimLeadingZero, ?_, by simp, ?_⟩
  · unfold getSicCodesFromCompaniesHouseResponse
    rw [hb]
    simp [jsonParse, Except.map, hcode, hcs]
  · intro i hi
    have hidx : (cs.map trimLeadingZero).getD i "" =
        trimLeadingZero (cs.getD i "") := by
      exact getD_map_of_lt trimLeadingZero "" "" cs i hi
    constructor
    · intro h0
      rw [hidx]
      exact trimLeadingZero_head_zero h0
    · intro h0
      rw [hidx]
      rw [trimLeadingZero_head_ne h0]

/-- Witness for C6 at the 200 response with raw codes
`["0620", "4791"]`. -/
theorem getSicCodes_strips_one_leading_zero_witness :
    ∃ out,
      getSicCodesFromCompaniesHouseResponse
          { code := 200,
            body := .obj { sic_codes := some ["0620", "4791"], company_status := none } } =
        .ok out ∧
      out.length = (["0620", "4791"] : List String).length ∧
      ∀ i, i < (["0620", "4791"] : List String).length →
        (((["0620", "4791"] : List String).getD i "").data.take 1 = ['0'] →
          "0" ++ out.getD i "" = (["0620", "4791"] : List String).getD i "" ∧
          (out.getD i "").length + 1 =
            ((["0620", "4791"] : List String).getD i "").length) ∧
        (((["0620", "4791"] : List String).getD i "").data.take 1 ≠ ['0'] →
          out.getD i "" = (["0620", "4791"] : List String).getD i "") :=
  getSicCodes_strips_one_leading_zero
    { code := 200,
      body := .obj { sic_codes := some ["0620", "4791"], company_status := none } }
    { sic_codes := some ["0620", "4791"], company_status := none }
    ["0620", "4791"] rfl rfl rfl

/-- C5: on every run, `getInputData` returns at most 600 rows; every
returned row has a non-empty company number and is active; and the result
is ordered by last-modified date, most recent first. -/
theorem getInputData_bounded_filtered_sorted (db : List CustomerRow)
    (r : CustomerRow) (hr : r ∈ getInputData db) :
    (getInputData db).length ≤ 600 ∧
    r.companyNo ≠ "" ∧ r.isinactive = false ∧
    (getInputData db).Pairwise
      (fun a b => b.lastModified ≤ a.lastModified) := by
  unfold getInputData at hr ⊢
  simp only [List.drop_zero] at hr ⊢
  have hm := List.mem_of_mem_take hr
  rw [List.mem_mergeSort] at hm
  have hprops := (List.mem_filter.mp hm).2
  simp only [Bool.and_eq_true, decide_eq_true_eq] at hprops
  refine ⟨?_, hprops.1, hprops.2, ?_⟩
  · rw [List.length_take]
    exact Nat.min_le_left _ _
  · have hs : (List.mergeSort
        (List.filter (fun r => decide (r.companyNo ≠ "") &&
          decide (r.isinactive = false)) db)
        (fun a b => decide (b.lastModified ≤ a.lastModified))).Pairwise
        (fun a b => decide (b.lastModified ≤ a.lastModified) = true) := by
      apply List.sorted_mergeSort
      · intro a b c hab hbc
        simp only [decide_eq_true_eq] at *
        omega
      · intro a b
        simp only [Bool.or_eq_true, decide_eq_true_eq]
        exact Nat.le_total _ _
    have ht := hs.sublist (List.take_sublist 600 _)
    exact ht.imp fun h => of_decide_eq_true h

/-- Witness for C5 at a concrete three-row customer table (one row has an
empty company number and is filtered out). -/
theorem getInputData_bounded_filtered_sorted_witness :
    (⟨3, "c", "X3", "", 7, false⟩ : CustomerRow) ∈
      getInputData
        [⟨2, "b", "", "", 9, false⟩, ⟨3, "c", "X3", "", 7, false⟩,
         ⟨1, "a", "X1", "", 5, false⟩] ∧
    ((getInputData
        [⟨2, "b", "", "", 9, false⟩, ⟨3, "c", "X3", "", 7, false⟩,
         ⟨1, "a", "X1", "", 5, false⟩]).length ≤ 600 ∧
      ("X3" : String) ≠ "" ∧ (false : Bool) = false ∧
      (getInputData
        [⟨2, "b", "", "", 9, false⟩, ⟨3, "c", "X3", "", 7, false⟩,
         ⟨1, "a", "X1", "", 5, false⟩]).Pairwise
        (fun a b => b.lastModified ≤ a.lastModified)) :=
  ⟨by
    unfold getInputData
    rw [List.mergeSort_of_sorted (by decide)]
    decide,
   getInputData_bounded_filtered_sorted
     [⟨2, "b", "", "", 9, false⟩, ⟨3, "c", "X3", "", 7, false⟩,
      ⟨1, "a", "X1", "", 5, false⟩]
     ⟨3, "c", "X3", "", 7, false⟩
     (by
       unfold getInputData
       rw [List.mergeSort_of_sorted (by decide)]
       decide)⟩

/-- One per-code attempt never touches the `isinactive` field. -/
theorem applySicCode_fst_isinactive (valid : String → Bool)
    (acc : ClientRecord × Bool) (c : String) :
    ((applySicCode valid acc c).1).isinactive = acc.1.isinactive := by
  unfold applySicCode setSicText
  by_cases h1 : c = ""
  · simp [h1]
  · by_cases h2 : valid c = true
    · simp [h1, h2]
    · simp [h1, h2]

/-- The whole per-code loop never touches the `isinactive` field. -/
theorem foldl_applySicCode_isinactive (valid : String → Bool) :
    ∀ (cs : List String) (acc : ClientRecord × Bool),
      ((cs.foldl (applySicCode valid) acc).1).isinactive = acc.1.isinactive
  | [], _ => rfl
  | c :: t, acc => by
    rw [List.foldl_cons, foldl_applySicCode_isinactive valid t _]
    exact applySicCode_fst_isinactive valid acc c

/-- `updateClientSicCodes` never touches the `isinactive` field. -/
theorem updateClientSicCodes_isinactive (valid : String → Bool)
    (descSearch : String → List String) (record : ClientRecord)
    (sicCodes : List String) :
    (updateClientSicCodes valid descSearch record sicCodes).record.isinactive =
      record.isinactive := by
  unfold updateClientSicCodes
  by_cases h : (sicCodes.foldl (applySicCode valid) (record, false)).2 = true
  · simp only [h, if_true]
    exact foldl_applySicCode_isinactive valid sicCodes (record, false)
  · simp only [h, if_false, Bool.false_eq_true, SicDescData.lengthProp,
      undefinedGtZero]
    exact foldl_applySicCode_isinactive valid sicCodes (record, false)

/-- `updateClientCompanyStatus` never touches the `isinactive` field. -/
theorem updateClientCompanyStatus_isinactive (record : ClientRecord)
    (s : String) :
    (updateClientCompanyStatus record s).isinactive = record.isinactive := rfl

/-- `updateClientAccount` can only turn `isinactive` on, never off. -/
theorem updateClientAccount_isinactive_mono (record : ClientRecord)
    (s : String) (h : record.isinactive = true) :
    (updateClientAccount record s).record.isinactive = true := by
  unfold updateClientAccount
  by_cases h1 : s = "active"
  · simpa [h1] using h
  · by_cases h2 : record.balance = 0 ∧ record.overdueBalance = 0 ∧
        record.unbilledOrders = 0
    · simp [h1, h2]
    · simpa [h1, h2] using h

/-- C8: the no-data frame condition of `map`.  If the interpreted codes
and status are both empty, `map` performs no record load and no save and
leaves every record untouched; conversely, whenever `map` performed any
record-store effect, it performed exactly one load followed by one save,
and the interpreted codes or status were non-empty. -/
theorem mapStage_no_data_frame_condition (env : Env)
    (context : MapContextValue) :
    (∀ cs st,
      getSicCodesFromCompaniesHouseResponse
          (getCompaniesHouseApiResponse env context.companyNo) = .ok cs →
      getCompanyStatusFromCompaniesHouseResponse
          (getCompaniesHouseApiResponse env context.companyNo) = .ok st →
      cs = [] → st = "" →
      mapStage env context =
        .ok { trace := [], savedRecord := none, codesApplied := none,
              statusApplied := none }) ∧
    (∀ res, mapStage env context = .ok res → res.trace ≠ [] →
      res.trace = [.load context.id, .save] ∧
      ∃ cs st,
        getSicCodesFromCompaniesHouseResponse
            (getCompaniesHouseApiResponse env context.companyNo) = .ok cs ∧
        getCompanyStatusFromCompaniesHouseResponse
            (getCompaniesHouseApiResponse env context.companyNo) = .ok st ∧
        (cs ≠ [] ∨ st ≠ "")) := by
  constructor
  · intro cs st hcs hst hcs0 hst0
    subst hcs0
    subst hst0
    unfold mapStage
    by_cases h : context.companyNo = ""
    · rw [if_pos h]
    · rw [if_neg h]
      simp only [hcs, hst]
      simp
  · intro res hres htr
    unfold mapStage at hres
    by_cases h : context.companyNo = ""
    · rw [if_pos h] at hres
      cases hres
      exact absurd rfl htr
    · rw [if_neg h] at hres
      cases hcs : getSicCodesFromCompaniesHouseResponse
          (getCompaniesHouseApiResponse env context.companyNo) with
      | error e =>
        simp only [hcs] at hres
        exact Except.noConfusion hres
      | ok cs =>
        simp only [hcs] at hres
        cases hst : getCompanyStatusFromCompaniesHouseResponse
            (getCompaniesHouseApiResponse env context.companyNo) with
        | error e =>
          simp only [hst] at hres
          exact Except.noConfusion hres
        | ok st =>
          simp only [hst] at hres
          by_cases hcond : 0 < cs.length ∨ st ≠ ""
          · rw [if_pos hcond] at hres
            cases hres
            refine ⟨rfl, cs, st, rfl, rfl, ?_⟩
            rcases hcond with hlen | hne
            · exact Or.inl (List.ne_nil_of_length_pos hlen)
            · exact Or.inr hne
          · rw [if_neg hcond] at hres
            cases hres
            exact absurd rfl htr

/-- Witness for C8: under a 404 environment `map` performs no effect, and
under a 200 environment with data it performs exactly one load and one
save with non-empty interpreted data. -/
theorem mapStage_no_data_frame_condition_witness :
    mapStage env404 { id := 1, companyNo := "123" } =
      .ok { trace := [], savedRecord := none, codesApplied := none,
            statusApplied := none } ∧
    (res200.trace =
        [.load (1 : Nat), .save] ∧
      ∃ cs st,
        getSicCodesFromCompaniesHouseResponse
            (getCompaniesHouseApiResponse env200
              (MapContextValue.mk 1 "123").companyNo) = .ok cs ∧
        getCompanyStatusFromCompaniesHouseResponse
            (getCompaniesHouseApiResponse env200
              (MapContextValue.mk 1 "123").companyNo) = .ok st ∧
        (cs ≠ [] ∨ st ≠ "")) :=
  ⟨(mapStage_no_data_frame_condition env404 { id := 1, companyNo := "123" }).1
      [] "" rfl rfl rfl rfl,
   (mapStage_no_data_frame_condition env200 { id := 1, companyNo := "123" }).2
      res200 rfl (by decide)⟩

/-- C9: deactivation is one-way.  `updateClientAccount` either leaves the
`isinactive` field exactly as it was or executes the single write
`isinactive := true` (it never writes `false`); consequently, for every
record processed and saved by `map`, a record that was inactive when
loaded is still inactive in the saved record. -/
theorem deactivation_one_way :
    (∀ (record : ClientRecord) (companyStatus : String),
      (updateClientAccount record companyStatus).record.isinactive =
          record.isinactive ∨
        ((updateClientAccount record companyStatus).record.isinactive = true ∧
          (updateClientAccount record companyStatus).didSetInactive = true)) ∧
    (∀ (env : Env) (context : MapContextValue) (res : MapResult)
        (r : ClientRecord),
      mapStage env context = .ok res → res.savedRecord = some r →
      (env.loadRecord context.id).isinactive = true →
      r.isinactive = true) := by
  constructor
  · intro record companyStatus
    unfold updateClientAccount
    by_cases h1 : companyStatus = "active"
    · simp [h1]
    · by_cases h2 : record.balance = 0 ∧ record.overdueBalance = 0 ∧
          record.unbilledOrders = 0
      · right
        simp [h1, h2]
      · left
        simp [h1, h2]
  · intro env context res r hres hsr hload
    unfold mapStage at hres
    by_cases h : context.companyNo = ""
    · rw [if_pos h] at hres
      cases hres
      exact Option.noConfusion hsr
    · rw [if_neg h] at hres
      cases hcs : getSicCodesFromCompaniesHouseResponse
          (getCompaniesHouseApiResponse env context.companyNo) with
      | error e =>
        simp only [hcs] at hres
        exact Except.noConfusion hres
      | ok cs =>
        simp only [hcs] at hres
        cases hst : getCompanyStatusFromCompaniesHouseResponse
            (getCompaniesHouseApiResponse env context.companyNo) with
        | error e =>
          simp only [hst] at hres
          exact Except.noConfusion hres
        | ok st =>
          simp only [hst] at hres
          by_cases hcond : 0 < cs.length ∨ st ≠ ""
          · rw [if_pos hcond] at hres
            cases hres
            simp only [Option.some.injEq] at hsr
            subst hsr
            have hcodes : (if 0 < cs.length then
                  ((updateClientSicCodes env.valid env.descSearch
                    (env.loadRecord context.id) cs).record, some cs)
                else (env.loadRecord context.id,
                  (none : Option (List String)))).1.isinactive = true := by
              by_cases hc : 0 < cs.length
              · rw [if_pos hc]
                show (updateClientSicCodes env.valid env.descSearch
                    (env.loadRecord context.id) cs).record.isinactive = true
                rw [updateClientSicCodes_isinactive]
                exact hload
              · rw [if_neg hc]
                exact hload
            by_cases hstne : st ≠ ""
            · rw [if_pos hstne]
              apply updateClientAccount_isinactive_mono
              rw [updateClientCompanyStatus_isinactive]
              exact hcodes
            · rw [if_neg hstne]
              exact hcodes
          · rw [if_neg hcond] at hres
            cases hres
            exact Option.noConfusion hsr

/-- Witness for C9: `updateClientAccount` on a concrete record, and a run
of `map` in which an already-inactive record stays inactive. -/
theorem deactivation_one_way_witness :
    ((updateClientAccount blankRecord "active").record.isinactive =
        blankRecord.isinactive ∨
      ((updateClientAccount blankRecord "active").record.isinactive = true ∧
        (updateClientAccount blankRecord "active").didSetInactive = true)) ∧
    recInactive.isinactive = true :=
  ⟨deactivation_one_way.1 blankRecord "active",
   deactivation_one_way.2 envInactive { id := 1, companyNo := "123" }
     resInactive recInactive rfl rfl rfl⟩

end UpdateSic
